import Mathlib

/-!
Shallow embedding of the TetraCryptPQC geometric-crypto core
(src/src/tke.py, src/src/qidl_encrypt.py, src/src/rth.py,
src/src/hbb_blockchain.py, src/src/crypto_base.py).

Numbers.  All numpy float64 arithmetic the claims touch is exact: the rth
module works on ±1 matrices and byte vectors (embedded as ℤ); the qidl
module works on the icosahedral lattice whose entries are 0, ±1 and the
golden ratio φ = (1+√5)/2, so its values live in the ring ℤ[φ] (embedded
as `Gold` below, integer coordinates in the basis (1, φ)); the tke and hbb
modules multiply `np.random.rand` matrices with byte vectors — each float64
draw is a dyadic rational m·2⁻⁵³ and is embedded by its integer mantissa m,
the common scale factor 2⁻⁵³ being irrelevant to every (in)equality the
claims state.

Randomness.  Every call of `np.random.rand` is embedded as an explicit
parameter holding the freshly drawn values, so the source's
draw-per-call behaviour becomes explicit data flow.
-/

/-- Elements of the ring ℤ[φ] ⊆ ℚ(√5), represented by integer coordinates
in the basis (1, φ) where φ = (1+√5)/2 is the golden ratio of
`create_icosahedral_structure` (the source computes it as a float; the
embedding is exact).  Since φ² = φ + 1, the ring is closed under the
products and sums taken by encrypt and by the determinant. -/
structure Gold where
  a : ℤ
  b : ℤ
deriving DecidableEq, Repr

instance : Zero Gold := ⟨⟨0, 0⟩⟩

instance : One Gold := ⟨⟨1, 0⟩⟩

instance : Add Gold := ⟨fun x y => ⟨x.a + y.a, x.b + y.b⟩⟩

instance : Neg Gold := ⟨fun x => ⟨-x.a, -x.b⟩⟩

instance : Mul Gold :=
  ⟨fun x y => ⟨x.a * y.a + x.b * y.b, x.a * y.b + x.b * y.a + x.b * y.b⟩⟩

instance (n : ℕ) : OfNat Gold n := ⟨⟨n, 0⟩⟩

/-- Golden ratio φ = (1 + √5)/2 as the basis element of ℤ[φ]. -/
def phi : Gold := ⟨0, 1⟩

/-- Embedding of a numpy uint8 value into ℤ[φ]. -/
def goldOfNat (n : ℕ) : Gold := ⟨(n : ℤ), 0⟩

/-- Dot product of two equal-length numeric lists, as computed by `np.dot`
of a matrix row with a vector. -/
def dotP {α : Type} [Mul α] [Add α] [Zero α] (xs ys : List α) : α :=
  (List.zipWith (fun x y => x * y) xs ys).foldr (fun x y => x + y) 0

/-- Matrix-vector product `np.dot(A, v)` for a matrix given as a list of
rows (the caller checks numpy's shape requirement separately). -/
def matVec {α : Type} [Mul α] [Add α] [Zero α] (A : List (List α)) (v : List α) : List α :=
  A.map (fun r => dotP r v)

/-- Decidable equality of `Except` results, so that concrete runs of the
embedded fallible operations can be checked by `decide`. -/
instance {ε α : Type} [DecidableEq ε] [DecidableEq α] : DecidableEq (Except ε α) := fun x y =>
  match x, y with
  | Except.ok a, Except.ok b =>
      if h : a = b then isTrue (by rw [h]) else isFalse (fun hh => h (Except.ok.inj hh))
  | Except.error a, Except.error b =>
      if h : a = b then isTrue (by rw [h]) else isFalse (fun hh => h (Except.error.inj hh))
  | Except.ok _, Except.error _ => isFalse (fun hh => Except.noConfusion hh)
  | Except.error _, Except.ok _ => isFalse (fun hh => Except.noConfusion hh)

/-! ### QIDLEncryption (src/src/qidl_encrypt.py) -/

/-- Errors raised by the qidl module: `ShapeMismatch` models numpy's
ValueError on a misaligned `np.dot`, and `NonInvertibleLattice` models the
`numpy.linalg.LinAlgError` that `np.linalg.solve` raises on a non-square or
exactly singular coefficient matrix (the spec's `NonInvertibleLattice`). -/
inductive QErr where
  | ShapeMismatch
  | NonInvertibleLattice
deriving DecidableEq, Repr

/-- The 12 three-dimensional icosahedral points hard-coded in
`create_icosahedral_structure`. -/
def basePoints : List (List Gold) :=
  [[0, 1, phi], [0, -1, phi], [0, 1, -phi], [0, -1, -phi],
   [1, phi, 0], [-1, phi, 0], [1, -phi, 0], [-1, -phi, 0],
   [phi, 0, 1], [-phi, 0, 1], [phi, 0, -1], [-phi, 0, -1]]

/-- Extension of one icosahedral point to `dimension` coordinates: the
source's `np.hstack` with a zero block when `dimension > 3`, identity
otherwise. -/
def icoRow (dimension : ℕ) (r : List Gold) : List Gold :=
  if 3 < dimension then r ++ List.replicate (dimension - 3) 0 else r

/-- Result of `create_icosahedral_structure`: the (possibly zero-extended)
point array sliced to its first `dimension` rows (`points[:self.dimension]`). -/
def icoStructure (dimension : ℕ) : List (List Gold) :=
  ((basePoints.map (icoRow dimension)).take dimension)

/-- Column count of the numpy array holding `create_icosahedral_structure`:
3 when no extension happens, `dimension` when `dimension > 3`. -/
def icoCols (dimension : ℕ) : ℕ := max 3 dimension

/-- Embedding of `QIDLEncryption.encrypt`: the message bytes are truncated
to the first `dimension` entries, the structure is sliced to
`ico_points[:len(message_array)]` rows, and `np.dot` is applied; numpy
raises (ShapeMismatch) unless the structure's column count equals the
truncated vector's length.  There is no chunking and no padding. -/
def qidlEncrypt (dimension : ℕ) (message : List ℕ) : Except QErr (List Gold) :=
  let messageArray := message
  let icoPoints := icoStructure dimension
  let v := (messageArray.take dimension).map goldOfNat
  if icoCols dimension = v.length then
    Except.ok (matVec (icoPoints.take messageArray.length) v)
  else
    Except.error QErr.ShapeMismatch

/-- Sign (-1)^j of the Laplace expansion along the first row. -/
def detSign (j : ℕ) : Gold := if j % 2 = 0 then 1 else -1

/-- Laplace expansion of a determinant along the first row, driven by a
fuel argument equal to the row count (always sufficient: each minor drops
one row).  Used to model the exact singularity test of LAPACK inside
`np.linalg.solve`. -/
def detFuel : ℕ → List (List Gold) → Gold
  | _, [] => 1
  | 0, _ :: _ => 0
  | fuel + 1, r :: rows =>
      ((List.range r.length).map
        (fun j => detSign j * r.getD j 0 * detFuel fuel (rows.map (fun q => q.eraseIdx j)))).foldr
        (fun x y => x + y) 0

/-- Determinant of a square matrix over ℤ[φ]. -/
def detG (A : List (List Gold)) : Gold := detFuel A.length A

/-- Replacement of column `j` of `A` by the vector `b` (Cramer's rule). -/
def setCol (A : List (List Gold)) (j : ℕ) (b : List Gold) : List (List Gold) :=
  List.zipWith (fun r bi => r.set j bi) A b

/-- Unique solution of `A x = b` for square non-singular `A`, by Cramer's
rule: component `j` is the exact quotient `det(A with column j set to b) /
det(A)`, represented here as the (numerator, denominator) pair so the
embedding stays inside ℤ[φ] (np.linalg.solve returns the same quotients as
floats; no claim inspects this success value). -/
def cramerSolve (A : List (List Gold)) (b : List Gold) : List (Gold × Gold) :=
  (List.range A.length).map (fun j => (detG (setCol A j b), detG A))

/-- Embedding of `np.linalg.solve(A, b)`: requires a square coefficient
matrix with nonzero determinant and a conforming right-hand side, otherwise
raises `LinAlgError` (modelled as `NonInvertibleLattice`). -/
def npSolve (A : List (List Gold)) (b : List Gold) : Except QErr (List (Gold × Gold)) :=
  if (A.all (fun r => r.length = A.length) = true) ∧ b.length = A.length ∧ detG A ≠ 0 then
    Except.ok (cramerSolve A b)
  else
    Except.error QErr.NonInvertibleLattice

/-- Embedding of `QIDLEncryption.decrypt` up to and including the
`np.linalg.solve` call (`ico_points[:len(encrypted)]`, `encrypted[:dimension]`).
The source's subsequent `np.round(...).astype(np.uint8)` and utf-8 `decode`
are not modelled: on every lattice the source constructs the solve step
already fails, so those steps are unreachable and the error result is the
whole function's result. -/
def qidlDecrypt (dimension : ℕ) (encrypted : List Gold) : Except QErr (List (Gold × Gold)) :=
  npSolve ((icoStructure dimension).take encrypted.length) (encrypted.take dimension)

/-! ### RecursiveTesseractHash (src/src/rth.py) -/

/-- Error raised inside `recursive_hash`: numpy's ValueError on a
misaligned `np.dot` (it is hit exactly when the input has fewer than
`dimensions` bytes). -/
inductive RErr where
  | ShapeMismatch
deriving DecidableEq, Repr

/-- Axis permutation performed by `np.meshgrid` with its default
'xy' indexing (the first two input axes are swapped) followed by `.T` and
`reshape(-1, D)`: coordinate `m` of vertex `n` is the sign of bit
`meshAxis m` of `n`.  For `D = 1` meshgrid performs no swap, but the two
orders agree on row 0, the only row `generate_tesseract` keeps there. -/
def meshAxis (m : ℕ) : ℕ := if m = 0 then 1 else if m = 1 then 0 else m

/-- Entry of the hypercube vertex grid: -1/+1 by the relevant bit of the
row index. -/
def tessEntry (n m : ℕ) : ℤ := if Nat.testBit n (meshAxis m) then 1 else -1

/-- The 2^D × D vertex array `np.array(np.meshgrid(*[[-1, 1]] * D)).T.reshape(-1, D)`. -/
def hypercubeVertices (dimensions : ℕ) : List (List ℤ) :=
  (List.range (2 ^ dimensions)).map
    (fun n => (List.range dimensions).map (fun m => tessEntry n m))

/-- Result of `generate_tesseract`: the vertex grid sliced to its first
`dimensions` rows (`vertices[:self.dimensions]`); deterministic in
`dimensions`, with no randomness involved. -/
def generateTesseract (dimensions : ℕ) : List (List ℤ) :=
  (hypercubeVertices dimensions).take dimensions

/-- One loop body of `recursive_hash`:
`np.dot(tesseract[:len(data_array)], data_array[:self.dimensions])`, with
numpy's shape check (columns of the sliced tesseract, always `dimensions`,
must equal the length of the truncated data vector). -/
def rthRound (dimensions : ℕ) (dataArr : List ℕ) : Except RErr (List ℤ) :=
  let tesseract := generateTesseract dimensions
  let v := dataArr.take dimensions
  if dimensions = v.length then
    Except.ok (matVec (tesseract.take dataArr.length) (v.map (fun b => (b : ℤ))))
  else
    Except.error RErr.ShapeMismatch

/-- Conversion `hash_value.astype(np.uint8)` feeding one round's output
back as the next round's byte data; embedded as reduction mod 256 of the
integer-valued float entries. -/
def toUint8 (v : List ℤ) : List ℕ := v.map (fun z => (z % 256).toNat)

/-- The `for _ in range(self.iterations)` loop of `recursive_hash`,
carrying the current `data_array` and the last `hash_value`. -/
def rthLoop (dimensions : ℕ) : ℕ → List ℕ → List ℤ → Except RErr (List ℤ)
  | 0, _, hashValue => Except.ok hashValue
  | n + 1, dataArr, _ =>
      match rthRound dimensions dataArr with
      | Except.error e => Except.error e
      | Except.ok h => rthLoop dimensions n (toUint8 h) h

/-- Embedding of `RecursiveTesseractHash.recursive_hash`: `hash_value`
starts as `np.zeros(dimensions)` and the loop runs `iterations` times. -/
def recursiveHash (dimensions iterations : ℕ) (data : List ℕ) : Except RErr (List ℤ) :=
  rthLoop dimensions iterations data (List.replicate dimensions 0)

/-- Embedding of `RecursiveTesseractHash.verify_hash`: recompute
`recursive_hash(data)` (propagating its error, as the Python call re-raises)
and compare with `np.array_equal` (exact element-wise equality). -/
def verifyHash (dimensions iterations : ℕ) (data : List ℕ) (target : List ℤ) :
    Except RErr Bool :=
  (recursiveHash dimensions iterations data).map (fun computed => computed == target)

/-! ### TetrahedralKeyExchange (src/src/tke.py) -/

/-- Modelled from the spec: `generate_tetrahedral_key` draws fresh random
points (`np.random.rand(dimension + 1, dimension)`, passed here explicitly
as `points`, float mantissas as integers) and runs scipy's `Delaunay`
triangulation, which is missing from src/ (external library); its first
simplex is a deterministic function of the points, and the key is the
flattened simplex vertex array truncated to `dimension` entries.  The
simplex selection is modelled as taking the sampled points in order, so the
key is the first `dimension` coordinates of the flattened point array.
What the claims depend on — that every call consumes a fresh random draw —
is explicit in the `points` parameter. -/
def generateTetrahedralKey (dimension : ℕ) (points : List (List ℤ)) : List ℤ :=
  (points.flatten).take dimension

/-- Embedding of `TetrahedralKeyExchange.exchange_keys`:
`np.dot(public_key[:self.dimension], self.generate_tetrahedral_key())`,
where the call to `generate_tetrahedral_key` draws a fresh random point set
(`freshPoints`) rather than reusing the key previously published. -/
def exchangeKeys (dimension : ℕ) (freshPoints : List (List ℤ)) (publicKey : List ℤ) : ℤ :=
  dotP (publicKey.take dimension) (generateTetrahedralKey dimension freshPoints)

/-- Fresh random draw (float mantissas) consumed when Alice generates her
public key. -/
def pointsA1 : List (List ℤ) :=
  [[1, 0, 0, 0], [1, 1, 1, 1], [1, 1, 1, 1], [1, 1, 1, 1], [1, 1, 1, 1]]

/-- Fresh random draw consumed when Bob generates his public key. -/
def pointsB1 : List (List ℤ) :=
  [[0, 1, 0, 0], [1, 1, 1, 1], [1, 1, 1, 1], [1, 1, 1, 1], [1, 1, 1, 1]]

/-- Fresh random draw consumed by Alice's later call of `exchange_keys`. -/
def pointsA2 : List (List ℤ) :=
  [[0, 1, 0, 0], [1, 1, 1, 1], [1, 1, 1, 1], [1, 1, 1, 1], [1, 1, 1, 1]]

/-- Fresh random draw consumed by Bob's later call of `exchange_keys`. -/
def pointsB2 : List (List ℤ) :=
  [[0, 0, 1, 0], [1, 1, 1, 1], [1, 1, 1, 1], [1, 1, 1, 1], [1, 1, 1, 1]]

/-! ### HypercubeBlockchain (src/src/hbb_blockchain.py) -/

/-- Byte strings (python `str.encode()` results and block payloads) are
embedded as lists of byte values. -/
abbrev Bytes := List ℕ

/-- The fresh 4×4 random matrix `np.random.rand(4, 4)` drawn inside each
call of `HypercubeBlock.calculate_hash`, passed explicitly; entries are the
integer mantissas of the float64 draws. -/
abbrev Mat4 := List (List ℤ)

/-- Decimal byte encoding of a natural number, matching python's
`str(index).encode()`. -/
def natDigits (n : ℕ) : Bytes := (Nat.toDigits 10 n).map Char.toNat

/-- Injective byte encoding of an integer (decimal digits with a leading
'-' byte when negative, terminated by ';'). -/
def encInt (z : ℤ) : Bytes :=
  (if z < 0 then 45 :: natDigits z.natAbs else natDigits z.natAbs) ++ [59]

/-- Modelled from the spec: `hashlib.sha256(hash_value.tobytes()).hexdigest()`
is an external cryptographic digest missing from src/; per §4.5 it is a
fixed deterministic digest of the transformed vector's bytes, modelled as
an injective byte encoding of that vector (collision-freeness standing in
for "distinct with overwhelming probability"). -/
def sha256Model (v : List ℤ) : Bytes := (v.map encInt).flatten

/-- Embedding of `HypercubeBlock.calculate_hash` with the fresh random
matrix explicit: the block fields are concatenated as bytes
(`str(self.index) + self.previous_hash + str(self.data) + str(self.timestamp)`),
the first 4 bytes are taken (`np.frombuffer(...)[:4]`), multiplied by the
matrix, and digested. -/
def calcHash (M : Mat4) (index : ℕ) (previousHash data timestamp : Bytes) : Bytes :=
  let dataBytes := natDigits index ++ previousHash ++ data ++ timestamp
  let dataArray := dataBytes.take 4
  sha256Model (matVec M (dataArray.map (fun b => (b : ℤ))))

/-- Embedding of `HypercubeBlock`: `data` and `timestamp` are carried as
their encoded byte strings (`str(...)` of the payload and of
`datetime.now()`), and `hash` is set at construction by `calculate_hash`. -/
structure HBlock where
  index : ℕ
  previousHash : Bytes
  data : Bytes
  timestamp : Bytes
  hash : Bytes
deriving DecidableEq, Repr

/-- Embedding of the `HypercubeBlock` constructor, with the fresh random
matrix of its `calculate_hash` call explicit. -/
def mkBlock (M : Mat4) (index : ℕ) (previousHash data timestamp : Bytes) : HBlock :=
  ⟨index, previousHash, data, timestamp, calcHash M index previousHash data timestamp⟩

/-- Byte string of the genesis payload 'Genesis Block'. -/
def genesisData : Bytes := [71, 101, 110, 101, 115, 105, 115, 32, 66, 108, 111, 99, 107]

/-- Embedding of `create_genesis_block`: index 0, previous hash '0' * 64
(64 bytes of the character '0' = 48), payload 'Genesis Block', and the
timestamp bytes of `datetime.now()` passed explicitly. -/
def createGenesisBlock (M : Mat4) (timestamp : Bytes) : HBlock :=
  mkBlock M 0 (List.replicate 64 48) genesisData timestamp

/-- Embedding of the `HypercubeBlockchain` constructor:
`self.chain = [self.create_genesis_block()]`. -/
def hbbInit (M : Mat4) (timestamp : Bytes) : List HBlock :=
  [createGenesisBlock M timestamp]

/-- Embedding of `get_latest_block` (`self.chain[-1]`); `none` corresponds
to the IndexError an empty chain would raise. -/
def getLatestBlock (chain : List HBlock) : Option HBlock := chain.getLast?

/-- Embedding of `add_block`: builds a block whose index is the latest
index + 1 and whose `previous_hash` is the latest block's stored hash,
then appends it.  On an empty chain `self.chain[-1]` would raise; that
branch is modelled as returning the chain unchanged and is proved
unreachable for ledgers built through the constructor. -/
def hbbAddBlock (M : Mat4) (timestamp data : Bytes) (chain : List HBlock) : List HBlock :=
  match chain.getLast? with
  | some latest => chain ++ [mkBlock M (latest.index + 1) latest.hash data timestamp]
  | none => chain

/-- Loop body of `is_chain_valid` from index 1 upward: recompute the
current block's hash (with a fresh random matrix, indexed by position) and
compare, then compare the previous-hash link; short-circuit on failure. -/
def chainCheck (fresh : ℕ → Mat4) : HBlock → List HBlock → ℕ → Bool
  | _, [], _ => true
  | prev, cur :: rest, i =>
      ((cur.hash == calcHash (fresh i) cur.index cur.previousHash cur.data cur.timestamp)
        && (cur.previousHash == prev.hash))
      && chainCheck fresh cur rest (i + 1)

/-- Embedding of `is_chain_valid`, with the fresh random matrix drawn by
each recomputation of `calculate_hash` made explicit as `fresh i` for the
block at position `i`. -/
def isChainValid (fresh : ℕ → Mat4) (chain : List HBlock) : Bool :=
  match chain with
  | [] => true
  | b :: rest => chainCheck fresh b rest 1

/-- A ledger built by the constructor followed by a sequence of `add_block`
calls, one (matrix, timestamp, data) triple per call. -/
def buildChain (M0 : Mat4) (t0 : Bytes) (ops : List (Mat4 × Bytes × Bytes)) : List HBlock :=
  ops.foldl (fun c op => hbbAddBlock op.1 op.2.1 op.2.2 c) (hbbInit M0 t0)

/-- The 4×4 zero matrix, a possible draw of `np.random.rand(4, 4)` (all
mantissas 0); used as a concrete creation-time draw. -/
def zeroMat4 : Mat4 := List.replicate 4 (List.replicate 4 0)

/-- A 4×4 identity-patterned mantissa matrix (diagonal entries 2⁻⁵³),
used as a concrete fresh validation-time draw distinct from the
creation-time draw. -/
def idMat4 : Mat4 := [[1, 0, 0, 0], [0, 1, 0, 0], [0, 0, 1, 0], [0, 0, 0, 1]]

/-- Byte string of the payload 'Test data' appended in the repository's own
test (tests/test_crypto.py). -/
def testData : Bytes := [84, 101, 115, 116, 32, 100, 97, 116, 97]

/-! ### Constructors and dimension validation (src/src/crypto_base.py and
the component constructor bodies) -/

/-- Error of `CryptoBase._validate_dimensions` (`ValueError`). -/
inductive CErr where
  | InvalidDimension
deriving DecidableEq, Repr

/-- Embedding of `CryptoBase.__init__`, whose body calls
`_validate_dimensions` (raise unless the dimension is an integer ≥ 1;
integrality is carried by the ℤ type). -/
def cryptoBaseInit (dimensions : ℤ) : Except CErr ℤ :=
  if dimensions < 1 then Except.error CErr.InvalidDimension else Except.ok dimensions

/-- Embedding of `TetrahedralKeyExchange.__init__`: stores the dimension
with no validation (the class does not inherit `CryptoBase`), so it never
fails. -/
def tkeInit (dimension : ℤ) : Except CErr ℤ := Except.ok dimension

/-- Embedding of `QIDLEncryption.__init__` (src/src/qidl_encrypt.py):
stores the dimension with no validation, so it never fails. -/
def qidlInit (dimension : ℤ) : Except CErr ℤ := Except.ok dimension

/-- Embedding of `RecursiveTesseractHash.__init__`: stores dimension and
iteration count with no validation, so it never fails. -/
def rthInit (dimensions iterations : ℤ) : Except CErr (ℤ × ℤ) :=
  Except.ok (dimensions, iterations)

/-! ## Theorems settling the claims -/

/-- C1: the claim asserts that two `TetrahedralKeyExchange` instances
calling `exchange_keys` on each other's published key material obtain the
same scalar.  The source redraws a fresh random key inside `exchange_keys`
instead of reusing the published one, so the two scalars differ: with the
concrete fresh draws `pointsA1`, `pointsB1` (key generation) and
`pointsA2`, `pointsB2` (the redraws inside the two `exchange_keys` calls),
Alice's shared scalar is 1 and Bob's is 0.  This refutes the claim on the
code (the repository's own test, tests/test_tke.py::test_key_exchange,
asserts the equality and fails). -/
theorem tke_exchange_not_symmetric :
    exchangeKeys 4 pointsA2 (generateTetrahedralKey 4 pointsB1) ≠
      exchangeKeys 4 pointsB2 (generateTetrahedralKey 4 pointsA1) := by
  decide

/-- C2: the claim asserts that after sequential `add_block` calls with no
mutation, `is_chain_valid` returns true.  Because `calculate_hash` draws a
fresh random 4×4 matrix on every call, validation recomputes each block
hash with a different matrix than the one used at creation: on the
untampered two-block chain built with creation draws `zeroMat4` and
validated with fresh draws `idMat4`, `is_chain_valid` returns false
(the repository's own test, tests/test_crypto.py::test_hypercube_blockchain,
asserts true and fails with overwhelming probability). -/
theorem hbb_valid_false_on_untampered_chain :
    isChainValid (fun _ => idMat4)
      (hbbAddBlock zeroMat4 [50] testData (hbbInit zeroMat4 [49])) = false := by
  decide

/-- C3: the claim asserts the round-trip law `decrypt (encrypt P) = P`.
On the code it is impossible at the default dimension 4: the sliced
icosahedral matrix has an all-zero first column (and an all-zero fourth
column), so the byte strings of 'Test message' and of the same message with
its first byte changed encrypt to the identical ciphertext — no decrypt
function can recover both — and `decrypt` on that ciphertext fails at
`np.linalg.solve` on the singular matrix instead of returning bytes (the
repository's own test, tests/test_crypto.py::test_qidl_encryption, asserts
the round trip and fails). -/
theorem qidl_roundtrip_impossible :
    ([84, 101, 115, 116, 32, 109, 101, 115, 115, 97, 103, 101] : List ℕ) ≠
        [85, 101, 115, 116, 32, 109, 101, 115, 115, 97, 103, 101]
    ∧ qidlEncrypt 4 [84, 101, 115, 116, 32, 109, 101, 115, 115, 97, 103, 101] =
        qidlEncrypt 4 [85, 101, 115, 116, 32, 109, 101, 115, 115, 97, 103, 101]
    ∧ qidlEncrypt 4 [84, 101, 115, 116, 32, 109, 101, 115, 115, 97, 103, 101] =
        Except.ok [⟨101, 115⟩, ⟨-101, 115⟩, ⟨101, -115⟩, ⟨-101, -115⟩]
    ∧ qidlDecrypt 4 [⟨101, 115⟩, ⟨-101, 115⟩, ⟨101, -115⟩, ⟨-101, -115⟩] =
        Except.error QErr.NonInvertibleLattice := by
  decide

/-- C4: every ciphertext actually produced by `encrypt` at the default
dimension 4 makes `decrypt` fail with the non-invertible-lattice error
(numpy's LinAlgError on the singular sliced icosahedral matrix) rather than
return any byte result. -/
theorem qidl_decrypt_fails_noninvertible (m : List ℕ) (c : List Gold)
    (h : qidlEncrypt 4 m = Except.ok c) :
    qidlDecrypt 4 c = Except.error QErr.NonInvertibleLattice := by
  simp only [qidlEncrypt] at h
  split at h
  case isFalse => exact absurd h (by simp)
  case isTrue hcond =>
    have hc : c = matVec ((icoStructure 4).take m.length) ((m.take 4).map goldOfNat) :=
      (Except.ok.inj h).symm
    have hlen4 : 4 ≤ m.length := by
      have := hcond
      simp [icoCols, List.length_take] at this
      omega
    have hico : (icoStructure 4).length = 4 := by decide
    have htake : (icoStructure 4).take m.length = icoStructure 4 :=
      List.take_of_length_le (by omega)
    have hclen : c.length = 4 := by
      rw [hc, htake]
      simp [matVec, hico]
    have hdet : detG (icoStructure 4) = 0 := by decide
    unfold qidlDecrypt
    rw [hclen]
    have htake4 : List.take 4 (icoStructure 4) = icoStructure 4 := by decide
    rw [htake4]
    unfold npSolve
    rw [if_neg]
    intro hcd
    exact hcd.2.2 hdet

/-- Witness for C4 at the concrete plaintext bytes [1, 2, 3, 4], whose
ciphertext is [2+3φ, -2+3φ, 2-3φ, -2-3φ]. -/
theorem qidl_decrypt_fails_noninvertible_witness :
    qidlDecrypt 4 [⟨2, 3⟩, ⟨-2, 3⟩, ⟨2, -3⟩, ⟨-2, -3⟩] =
      Except.error QErr.NonInvertibleLattice :=
  qidl_decrypt_fails_noninvertible [1, 2, 3, 4]
    [⟨2, 3⟩, ⟨-2, 3⟩, ⟨2, -3⟩, ⟨-2, -3⟩] (by decide)

/-- C5 counterexample: the claim asserts `verify(X, D, N, digest(X, D, N))`
is true for every byte payload X, but for the 2-byte payload 'ab' at the
default dimension 4 the digest computation itself fails on numpy's shape
check (no zero-padding happens), so verification cannot return true. -/
theorem rth_verify_errors_on_short_input :
    (recursiveHash 4 3 [97, 98]).bind (fun d => verifyHash 4 3 [97, 98] d) =
      Except.error RErr.ShapeMismatch := by
  decide

/-- C5 as amended: whenever `recursive_hash` succeeds on a payload (which
happens exactly when the payload has at least `dimensions` bytes),
`verify_hash` of the payload against that digest returns true, because the
tesseract matrix is a deterministic function of the dimension and the
recomputation is exact. -/
theorem rth_verify_roundtrip (D N : ℕ) (data : List ℕ) (d : List ℤ)
    (h : recursiveHash D N data = Except.ok d) :
    verifyHash D N data d = Except.ok true := by
  unfold verifyHash
  rw [h]
  simp [Except.map]

/-- Witness for C5 at the payload [1, 2, 3, 4] with dimension 4 and 3
iterations, whose digest is [-304, -272, -248, -216]. -/
theorem rth_verify_roundtrip_witness :
    verifyHash 4 3 [1, 2, 3, 4] [-304, -272, -248, -216] = Except.ok true :=
  rth_verify_roundtrip 4 3 [1, 2, 3, 4] [-304, -272, -248, -216] (by decide)

/-- C6 counterexample: the claim predicts ciphertext length
ceil(len/D) × rows (two chunks of 4 for an 8-byte plaintext at D = 4,
i.e. 8 lattice-output elements, growing with the plaintext), but `encrypt`
performs no chunking: the 8-byte plaintext [1..8] yields a ciphertext of
exactly 4 elements, not the predicted ((8 + 4 - 1) / 4) * 4 = 8. -/
theorem qidl_encrypt_no_chunking :
    (qidlEncrypt 4 [1, 2, 3, 4, 5, 6, 7, 8]).map List.length = Except.ok 4
      ∧ (4 : ℕ) ≠ ((8 + 4 - 1) / 4) * 4 := by
  decide

/-- C6 as amended: `encrypt` truncates the plaintext to its first D bytes
and applies the D-row sliced lattice once, so for every plaintext of at
least D bytes (3 ≤ D ≤ 12, the range in which the sliced structure has D
rows) the ciphertext has exactly D elements, independent of the plaintext
length; there is no chunking and no padding. -/
theorem qidl_encrypt_single_block_length (D : ℕ) (m : List ℕ)
    (h3 : 3 ≤ D) (h12 : D ≤ 12) (hm : D ≤ m.length) :
    (qidlEncrypt D m).map List.length = Except.ok D := by
  have hcond : icoCols D = ((m.take D).map goldOfNat).length := by
    simp [icoCols, List.length_take]
    omega
  unfold qidlEncrypt
  rw [if_pos hcond]
  have hbase : basePoints.length = 12 := by decide
  simp [Except.map, matVec, icoStructure, List.length_take, hbase]
  omega

/-- Witness for C6's amended statement at dimension 4 on the 5-byte
plaintext [9, 8, 7, 6, 5]. -/
theorem qidl_encrypt_single_block_length_witness :
    (qidlEncrypt 4 [9, 8, 7, 6, 5]).map List.length = Except.ok 4 :=
  qidl_encrypt_single_block_length 4 [9, 8, 7, 6, 5] (by decide) (by decide) (by decide)

/-- C7 counterexample: the claim asserts short inputs are zero-padded and
the hash completes for every payload, but `recursive_hash` on the 2-byte
payload 'ab' at dimension 4 fails on numpy's shape check in the very first
round. -/
theorem rth_rejects_short_input :
    recursiveHash 4 3 [97, 98] = Except.error RErr.ShapeMismatch := by
  decide

/-- Length of a matrix-vector product: one entry per matrix row. -/
theorem matVec_length {α : Type} [Mul α] [Add α] [Zero α]
    (A : List (List α)) (v : List α) : (matVec A v).length = A.length := by
  simp [matVec]

/-- Length preservation of the uint8 conversion between hash rounds. -/
theorem toUint8_length (v : List ℤ) : (toUint8 v).length = v.length := by
  simp [toUint8]

/-- Helper invariant for C7: once the data vector has at least `D` bytes,
every round preserves that bound (each round's output has exactly `D`
entries), so the loop runs all its iterations and returns a digest. -/
theorem rthLoop_ok_of_le (D : ℕ) (N : ℕ) :
    ∀ dataArr : List ℕ, ∀ acc : List ℤ, D ≤ dataArr.length →
      ∃ v : List ℤ, rthLoop D N dataArr acc = Except.ok v := by
  induction N with
  | zero => intro dataArr acc _; exact ⟨acc, rfl⟩
  | succ n ih =>
    intro dataArr acc hlen
    have hvlen : D = (dataArr.take D).length := by
      simp [List.length_take]
      omega
    simp only [rthLoop, rthRound]
    rw [if_pos hvlen]
    apply ih
    rw [toUint8_length, matVec_length, List.length_take]
    have h2 : D < 2 ^ D := Nat.lt_two_pow D
    have htess : (generateTesseract D).length = D := by
      simp [generateTesseract, hypercubeVertices, List.length_take]
      omega
    omega

/-- C7 as amended: for every payload with at least `dimensions` bytes
(`dimensions` ≥ 1), `recursive_hash` completes all `iterations` rounds and
returns a digest; payloads shorter than the dimension are rejected with a
shape error rather than zero-padded. -/
theorem rth_completes_with_enough_bytes (D N : ℕ) (data : List ℕ)
    (hD : 1 ≤ D) (hlen : D ≤ data.length) :
    ∃ v : List ℤ, recursiveHash D N data = Except.ok v := by
  unfold recursiveHash
  exact rthLoop_ok_of_le D N data (List.replicate D 0) hlen

/-- Witness for C7's amended statement at dimension 4, 3 iterations, on the
4-byte payload [1, 2, 3, 4]. -/
theorem rth_completes_with_enough_bytes_witness :
    ∃ v : List ℤ, recursiveHash 4 3 [1, 2, 3, 4] = Except.ok v :=
  rth_completes_with_enough_bytes 4 3 [1, 2, 3, 4] (by decide) (by decide)

/-- C8 counterexample: the claim asserts every component constructor
rejects dimension ≤ 0, but `TetrahedralKeyExchange`, `QIDLEncryption` and
`RecursiveTesseractHash` do not inherit `CryptoBase` and perform no
validation: construction at dimension 0 (and at -2) succeeds and the
instance is created. -/
theorem component_constructors_skip_validation :
    tkeInit 0 = Except.ok 0 ∧ qidlInit 0 = Except.ok 0
      ∧ rthInit 0 3 = Except.ok (0, 3) ∧ tkeInit (-2) = Except.ok (-2) := by
  decide

/-- C8 as amended: only `CryptoBase` validates its dimension (failing with
InvalidDimension exactly when it is an integer < 1 and succeeding
otherwise); the TKE, QIDL and RTH constructors accept every dimension
unvalidated and always succeed. -/
theorem dimension_validation_only_in_crypto_base (d : ℤ) :
    (d < 1 → cryptoBaseInit d = Except.error CErr.InvalidDimension)
    ∧ (1 ≤ d → cryptoBaseInit d = Except.ok d)
    ∧ tkeInit d = Except.ok d
    ∧ qidlInit d = Except.ok d
    ∧ (∀ it : ℤ, rthInit d it = Except.ok (d, it)) := by
  refine ⟨fun h => ?_, fun h => ?_, rfl, rfl, fun it => rfl⟩
  · unfold cryptoBaseInit
    rw [if_pos h]
  · unfold cryptoBaseInit
    rw [if_neg (by omega)]

/-- Witness for C8's amended statement: `CryptoBase` rejects dimension 0
and accepts the default dimension 4. -/
theorem dimension_validation_only_in_crypto_base_witness :
    cryptoBaseInit 0 = Except.error CErr.InvalidDimension
      ∧ cryptoBaseInit 4 = Except.ok 4 :=
  ⟨(dimension_validation_only_in_crypto_base 0).1 (by decide),
   (dimension_validation_only_in_crypto_base 4).2.1 (by decide)⟩

/-- Helper for C9: appending a block never changes the chain's head. -/
theorem hbbAddBlock_head (M : Mat4) (t d : Bytes) (c : List HBlock) :
    (hbbAddBlock M t d c).head? = c.head? := by
  unfold hbbAddBlock
  cases hl : c.getLast? with
  | none => rfl
  | some l =>
    cases c with
    | nil => simp at hl
    | cons a as => simp

/-- Helper for C9: folding `add_block` calls over a chain never changes the
chain's head. -/
theorem buildChain_head_aux (ops : List (Mat4 × Bytes × Bytes)) :
    ∀ c : List HBlock,
      (ops.foldl (fun ch op => hbbAddBlock op.1 op.2.1 op.2.2 ch) c).head? = c.head? := by
  induction ops with
  | nil => intro c; rfl
  | cons op ops ih =>
    intro c
    simp only [List.foldl_cons]
    rw [ih, hbbAddBlock_head]

/-- C9: every ledger reachable from the constructor by `add_block` calls
still starts with the genesis block (index 0, previous hash of 64 zero
characters), is never empty, and `get_latest_block` returns a block, so the
empty-chain failure is unreachable. -/
theorem hbb_chain_never_empty (M0 : Mat4) (t0 : Bytes) (ops : List (Mat4 × Bytes × Bytes)) :
    (buildChain M0 t0 ops).head? = some (createGenesisBlock M0 t0)
    ∧ (createGenesisBlock M0 t0).index = 0
    ∧ (createGenesisBlock M0 t0).previousHash = List.replicate 64 48
    ∧ (getLatestBlock (buildChain M0 t0 ops)).isSome = true := by
  have hhead : (buildChain M0 t0 ops).head? = some (createGenesisBlock M0 t0) := by
    unfold buildChain
    rw [buildChain_head_aux]
    rfl
  refine ⟨hhead, rfl, rfl, ?_⟩
  unfold getLatestBlock
  rw [List.getLast?_isSome]
  intro hnil
  rw [hnil] at hhead
  exact Option.noConfusion hhead

/-- C10: at any dimension, two plaintexts of equal length that agree on
their first `dimension` bytes (each at least `dimension` bytes long)
encrypt to the identical result: `encrypt` reads only `len(message)` and
the first `dimension` bytes, so all later bytes have no influence on the
ciphertext. -/
theorem qidl_tail_noninterference (D : ℕ) (m1 m2 : List ℕ)
    (hlen : m1.length = m2.length) (hD : D ≤ m1.length)
    (hpre : m1.take D = m2.take D) :
    qidlEncrypt D m1 = qidlEncrypt D m2 := by
  simp only [qidlEncrypt]
  rw [hpre, hlen]

/-- Witness for C10 at dimension 4: the 5-byte messages [1,2,3,4,5] and
[1,2,3,4,9] differ only in their last byte and encrypt identically. -/
theorem qidl_tail_noninterference_witness :
    qidlEncrypt 4 [1, 2, 3, 4, 5] = qidlEncrypt 4 [1, 2, 3, 4, 9] :=
  qidl_tail_noninterference 4 [1, 2, 3, 4, 5] [1, 2, 3, 4, 9] (by decide) (by decide)
    (by decide)
